import Mathlib

/-!
# Verification of the smart-analytics backend data pipeline

Shallow embedding of the repository's core modules:

* `FileProcessor` (utils/fileProcessor.js): column type detection,
  file-type extraction, upload cleanup.
* `DataAnalyzer` (utils/dataAnalyzer.js): `generateSummaryStats`.
* `aiProviders` (utils/aiProviders.js): `generateAIInsights` provider fallback.
* `uploadController` (controllers/uploadController.js): `uploadFile`.
* `aiController` (controllers/aiController.js): `chat`.

Modelling conventions:

* JS numbers are modelled as exact rationals (`ℚ`).  Every value handled by
  the statistics pipeline is small tabular data; none of the verified claims
  depends on IEEE-754 rounding, and where a floating comparison appears
  (`count / totalValid > 0.7`) the model uses an exact integer inequality
  that agrees with the double computation on the whole reachable domain
  (see `ratioGT`).
* JS cell values are the inductive `Value` (null/undefined collapse to the
  lookup returning `none` for undefined and `Value.vnull` for null, which the
  source treats identically everywhere it inspects them together).
* `Number(s)` / `parseFloat(s)` are modelled for decimal numerals (sign,
  digits, fraction, exponent), the only forms occurring in tabular text;
  hexadecimal/`Infinity` forms are outside the model.
* `new Date(s)` timestamps are UTC-midnight epoch milliseconds; the legacy
  `MM/DD/YYYY` parser's day-rollover is reproduced by the civil-day formula.
* Thrown JS exceptions are `Except.error` with a short message.
-/

/-- A JS scalar cell value as it occurs in parsed rows. -/
inductive Value where
  | vnull
  | vstr (s : String)
  | vnum (q : ℚ)
  | vbool (b : Bool)
deriving DecidableEq

/-- Decidable equality of `Except` results (no such instance ships with core). -/
instance {e a : Type} [DecidableEq e] [DecidableEq a] : DecidableEq (Except e a) := fun x y =>
  match x, y with
  | .ok u, .ok v =>
    if h : u = v then .isTrue (by rw [h]) else .isFalse (fun hc => h (Except.ok.inj hc))
  | .error u, .error v =>
    if h : u = v then .isTrue (by rw [h]) else .isFalse (fun hc => h (Except.error.inj hc))
  | .ok _, .error _ => .isFalse (fun hc => Except.noConfusion hc)
  | .error _, .ok _ => .isFalse (fun hc => Except.noConfusion hc)

/-- A parsed row: JS object mapping column names to values.
A missing key (JS `undefined`) is a failed lookup. -/
abbrev Row := List (String × Value)

/-- `row[name]` (JS property read; `none` = `undefined`). -/
def jsIndex (row : Row) (name : String) : Option Value :=
  row.lookup name

/-- The emptiness test `value === null || value === undefined || value === ''`
restricted to present values (the `undefined` case is a failed `jsIndex`). -/
def isEmptyCell : Value → Bool
  | .vnull => true
  | .vstr s => s == ""
  | _ => false

/-- JS whitespace (ASCII subset; tabular text contains no exotic spaces). -/
def isSpaceChar (c : Char) : Bool :=
  c == ' ' || c == '\t' || c == '\n' || c == '\r'

def dropSpaces (cs : List Char) : List Char :=
  cs.dropWhile isSpaceChar

/-- Trim leading and trailing whitespace from a char list. -/
def trimChars (cs : List Char) : List Char :=
  ((dropSpaces cs).reverse.dropWhile isSpaceChar).reverse

/-- ASCII lower-casing of one character (`toLowerCase` on the data in scope). -/
def charToLower (c : Char) : Char :=
  if c.toNat ≥ 65 && c.toNat ≤ 90 then Char.ofNat (c.toNat + 32) else c

/-- `s.toLowerCase()`. -/
def strToLower (s : String) : String :=
  (s.toList.map charToLower).asString

/-- `s.trim()`. -/
def strTrim (s : String) : String :=
  (trimChars s.toList).asString

/-- Split off the longest digit run. -/
def takeDigits : List Char → List Char × List Char
  | [] => ([], [])
  | c :: cs =>
    if c.isDigit then
      let p := takeDigits cs
      (c :: p.1, p.2)
    else ([], c :: cs)

def digitsVal (ds : List Char) : Nat :=
  ds.foldl (fun a c => a * 10 + (c.toNat - 48)) 0

/-- Optional sign of a numeral. -/
def parseSign : List Char → ℚ × List Char
  | '+' :: cs => (1, cs)
  | '-' :: cs => (-1, cs)
  | cs => (1, cs)

/-- Parse a signed decimal mantissa `[+-]digits[.digits]`; returns its exact
value and the unconsumed tail, or `none` when no digit is present. -/
def parseMantissa (cs : List Char) : Option (ℚ × List Char) :=
  let sp := parseSign cs
  let ip := takeDigits sp.2
  match ip.2 with
  | '.' :: rest =>
    let fp := takeDigits rest
    if ip.1.isEmpty && fp.1.isEmpty then none
    else some (sp.1 * ((digitsVal ip.1 : ℚ) + (digitsVal fp.1 : ℚ) / (10 ^ fp.1.length)), fp.2)
  | other =>
    if ip.1.isEmpty then none
    else some (sp.1 * (digitsVal ip.1 : ℚ), other)

/-- Parse the tail of an exponent part (after `e`/`E`). -/
def parseExpTail (cs : List Char) : Option (Int × List Char) :=
  let sg : Int × List Char :=
    match cs with
    | '+' :: r => (1, r)
    | '-' :: r => (-1, r)
    | r => (1, r)
  let dg := takeDigits sg.2
  if dg.1.isEmpty then none
  else some (sg.1 * (digitsVal dg.1 : Int), dg.2)

def parseExponent (cs : List Char) : Option (Int × List Char) :=
  match cs with
  | 'e' :: rest => parseExpTail rest
  | 'E' :: rest => parseExpTail rest
  | _ => none

def applyExp (q : ℚ) (e : Int) : ℚ :=
  if 0 ≤ e then q * 10 ^ e.toNat else q / 10 ^ (-e).toNat

/-- `Number(s)` for decimal numerals: the whole (trimmed) string must be a
numeral; `''` and whitespace-only strings convert to `0`; `none` models `NaN`. -/
def jsNumberOpt (s : String) : Option ℚ :=
  let cs := trimChars s.toList
  if cs.isEmpty then some 0
  else
    match parseMantissa cs with
    | none => none
    | some mr =>
      match mr.2 with
      | [] => some mr.1
      | rest =>
        match parseExponent rest with
        | some er => if er.2.isEmpty then some (applyExp mr.1 er.1) else none
        | none => none

/-- `parseFloat(s)`: parse the longest numeral prefix after leading
whitespace; `none` models `NaN`. -/
def jsParseFloatOpt (s : String) : Option ℚ :=
  let cs := dropSpaces s.toList
  match parseMantissa cs with
  | none => none
  | some mr =>
    match parseExponent mr.2 with
    | some er => some (applyExp mr.1 er.1)
    | none => some mr.1

/-- The detector's number test `!isNaN(Number(value)) && !isNaN(parseFloat(value))`.
Numbers pass both conversions; booleans fail `parseFloat('true'/'false')`;
null never reaches the test (filtered as empty). -/
def isNumberValue : Value → Bool
  | .vnum _ => true
  | .vstr s => (jsNumberOpt s).isSome && (jsParseFloatOpt s).isSome
  | .vbool _ => false
  | .vnull => false

def patYMD (sep : Char) : List Char → Bool
  | [y1, y2, y3, y4, s1, m1, m2, s2, d1, d2] =>
    y1.isDigit && y2.isDigit && y3.isDigit && y4.isDigit && s1 == sep &&
    m1.isDigit && m2.isDigit && s2 == sep && d1.isDigit && d2.isDigit
  | _ => false

def patMDY (sep : Char) : List Char → Bool
  | [m1, m2, s1, d1, d2, s2, y1, y2, y3, y4] =>
    m1.isDigit && m2.isDigit && s1 == sep && d1.isDigit && d2.isDigit &&
    s2 == sep && y1.isDigit && y2.isDigit && y3.isDigit && y4.isDigit
  | _ => false

def val2 (a b : Char) : Nat := (a.toNat - 48) * 10 + (b.toNat - 48)

def val4 (a b c d : Char) : Nat :=
  ((a.toNat - 48) * 10 + (b.toNat - 48)) * 100 + val2 c d

/-- `(year, month, day)` of a `YYYY?MM?DD`-shaped char list. -/
def ymdOf : List Char → Nat × Nat × Nat
  | [y1, y2, y3, y4, _, m1, m2, _, d1, d2] => (val4 y1 y2 y3 y4, val2 m1 m2, val2 d1 d2)
  | _ => (0, 0, 0)

/-- `(year, month, day)` of a `MM?DD?YYYY`-shaped char list. -/
def mdyOf : List Char → Nat × Nat × Nat
  | [m1, m2, _, d1, d2, _, y1, y2, y3, y4] => (val4 y1 y2 y3 y4, val2 m1 m2, val2 d1 d2)
  | _ => (0, 0, 0)

def isLeapYear (y : Nat) : Bool :=
  (y % 4 == 0 && y % 100 != 0) || y % 400 == 0

def daysInMonth (y m : Nat) : Nat :=
  if m == 2 then (if isLeapYear y then 29 else 28)
  else if m == 4 || m == 6 || m == 9 || m == 11 then 30
  else 31

/-- Validity of `new Date` on an ISO `YYYY-MM-DD` string: a real calendar date. -/
def isoValid (cs : List Char) : Bool :=
  let t := ymdOf cs
  decide (1 ≤ t.2.1) && decide (t.2.1 ≤ 12) &&
  decide (1 ≤ t.2.2) && decide (t.2.2 ≤ daysInMonth t.1 t.2.1)

/-- Validity of `new Date` on a legacy `MM/DD/YYYY`-style string: the engine's
legacy parser requires month 1..12 and a positive day, rolling oversized days
into the next month instead of rejecting them. -/
def legacyValid (t : Nat × Nat × Nat) : Bool :=
  decide (1 ≤ t.2.1) && decide (t.2.1 ≤ 12) && decide (1 ≤ t.2.2)

/-- `FileProcessor.isValidDate`: one of the four literal patterns, and the
string parses to a valid date.  Only strings can match the patterns (the
string form of a number or boolean never has the `??##?##` shape). -/
def isValidDate : Value → Bool
  | .vstr s =>
    let cs := s.toList
    if patYMD '-' cs then isoValid cs
    else if patMDY '/' cs || patMDY '-' cs then legacyValid (mdyOf cs)
    else if patYMD '/' cs then legacyValid (ymdOf cs)
    else false
  | _ => false

/-- Boolean test: `typeof value === 'boolean' || value.toLowerCase() === 'true'
|| value.toLowerCase() === 'false'`.  Non-string non-boolean values never reach
this test (numbers were already classified). -/
def isBooleanValue : Value → Bool
  | .vbool _ => true
  | .vstr s => strToLower s == "true" || strToLower s == "false"
  | _ => false

inductive ColType where
  | number
  | date
  | boolean
  | string
deriving DecidableEq

structure Column where
  name : String
  type : ColType
deriving DecidableEq

/-- The counting loop of `detectColumnType` over one sampled row:
skip empty values, classify as number, else date, else boolean, else nothing.
The accumulator is `(numberCount, dateCount, booleanCount)`. -/
def detectStep (name : String) (acc : Nat × Nat × Nat) (row : Row) : Nat × Nat × Nat :=
  match jsIndex row name with
  | none => acc
  | some v =>
    if isEmptyCell v then acc
    else if isNumberValue v then (acc.1 + 1, acc.2.1, acc.2.2)
    else if isValidDate v then (acc.1, acc.2.1 + 1, acc.2.2)
    else if isBooleanValue v then (acc.1, acc.2.1, acc.2.2 + 1)
    else acc

/-- Category counts over the first `min(10, rowCount)` rows. -/
def sampleCounts (data : List Row) (name : String) : Nat × Nat × Nat :=
  (data.take (min 10 data.length)).foldl (detectStep name) (0, 0, 0)

/-- `count / totalValid > 0.7` as computed on doubles.  On the reachable
domain `count ≤ totalValid ≤ 10` the double comparison agrees exactly with
`10 * count > 7 * totalValid` (the only tie `7/10` rounds to the same double
as the literal `0.7`, and `0/0 = NaN` compares false, like `10*0 > 7*0`). -/
def ratioGT (count totalValid : Nat) : Bool :=
  decide (10 * count > 7 * totalValid)

/-- `FileProcessor.detectColumnType`. -/
def detectColumnType (data : List Row) (columnName : String) : ColType :=
  if data.length = 0 then .string
  else
    let c := sampleCounts data columnName
    let sampleSize := min 10 data.length
    let totalValid := sampleSize - (sampleSize - c.1 - c.2.1 - c.2.2)
    if ratioGT c.1 totalValid then .number
    else if ratioGT c.2.1 totalValid then .date
    else if ratioGT c.2.2 totalValid then .boolean
    else .string

/-- `FileProcessor.getFileType`: last dot-segment of the filename, lower-cased. -/
def getFileType (fileName : String) : String :=
  strToLower ((fileName.toList.reverse.takeWhile (fun c => c != '.')).reverse.asString)

/-! ## DataAnalyzer: summary statistics -/

structure TopValue where
  value : String
  count : Nat
  percentage : ℚ
deriving DecidableEq

structure NumericStat where
  count : Nat
  nullCount : Nat
  min : ℚ
  max : ℚ
  sum : ℚ
  mean : ℚ
  median : ℚ
deriving DecidableEq

structure CategoricalStat where
  uniqueValues : Nat
  totalCount : Nat
  nullCount : Nat
  topValues : List TopValue
  mostFrequent : Option String
deriving DecidableEq

/-- Date statistics; `earliest`/`latest` are the epoch-millisecond timestamps
whose `toISOString()` rendering the source stores (the rendering is injective,
so the timestamp represents the ISO string faithfully). -/
structure DateStat where
  count : Nat
  nullCount : Nat
  earliest : Int
  latest : Int
  span : Int
deriving DecidableEq

/-- An entry of the `dateStats` object: either the reduced
`{nullCount: rowCount}` record written for a valueless date column, or a full
`DateStat`. -/
inductive DateEntry where
  | nullOnly (nullCount : Nat)
  | stat (s : DateStat)
deriving DecidableEq

structure SummaryStats where
  rowCount : Nat
  columnCount : Nat
  columns : List Column
  numericStats : List (String × NumericStat)
  categoricalStats : List (String × CategoricalStat)
  dateStats : List (String × DateEntry)
deriving DecidableEq

/-- JS object property assignment `obj[k] = v` on a string-keyed object
modelled as an association list: replace in place or append. -/
def upsert {α : Type} (m : List (String × α)) (k : String) (v : α) : List (String × α) :=
  match m with
  | [] => [(k, v)]
  | (k', v') :: rest => if k' = k then (k, v) :: rest else (k', v') :: upsert rest k v

/-- `data.map(row => row[name]).filter(v => v !== null && v !== undefined && v !== '')`. -/
def columnValues (data : List Row) (name : String) : List Value :=
  data.filterMap fun row =>
    match jsIndex row name with
    | none => none
    | some v => if isEmptyCell v then none else some v

/-- `parseFloat(val)` on a cell value: strings via the numeral-prefix parse,
numbers pass through, booleans stringify to `'true'/'false'` and fail. -/
def jsParseFloatVal : Value → Option ℚ
  | .vnum q => some q
  | .vstr s => jsParseFloatOpt s
  | .vbool _ => none
  | .vnull => none

/-- The successfully coerced numeric values of a column
(`values.map(parseFloat).filter(not NaN)`). -/
def numericValuesOf (data : List Row) (name : String) : List ℚ :=
  (columnValues data name).filterMap jsParseFloatVal

/-- `[...numericValues].sort((a, b) => a - b)`: for an exact total order a
correct comparison sort has a unique result, so insertion sort models it. -/
def sortAscQ (l : List ℚ) : List ℚ :=
  List.insertionSort (· ≤ ·) l

def sortAscInt (l : List Int) : List Int :=
  List.insertionSort (· ≤ ·) l

/-- The even/odd median rule over the sorted sequence. -/
def medianOfSorted (sorted : List ℚ) : ℚ :=
  if sorted.length % 2 = 0 then
    (sorted.getD (sorted.length / 2 - 1) 0 + sorted.getD (sorted.length / 2) 0) / 2
  else sorted.getD (sorted.length / 2) 0

/-- The numeric stats record built for a number column. -/
def mkNumericStat (data : List Row) (name : String) : NumericStat :=
  let numericValues := numericValuesOf data name
  let sorted := sortAscQ numericValues
  ⟨numericValues.length,
   data.length - numericValues.length,
   sorted.getD 0 0,
   sorted.getD (sorted.length - 1) 0,
   numericValues.foldl (· + ·) 0,
   numericValues.foldl (· + ·) 0 / (numericValues.length : ℚ),
   medianOfSorted sorted⟩

/-- Decimal digit scaling of `q`: the least `k` with `q·10^k` integral (such a
`k ≤ den` exists exactly when the denominator has only factors 2 and 5, which
is always the case for values denoting JS doubles). -/
def decScale (q : ℚ) : Option Nat :=
  (List.range (q.den + 1)).find? fun k => (q * (10 : ℚ) ^ k).den == 1

/-- Render a terminating rational as its plain decimal numeral, the way JS
stringifies the double it stands for.  Rationals with no terminating decimal
expansion denote no JS double; they render as an explicit fraction. -/
def ratDecimalString (q : ℚ) : String :=
  match decScale q with
  | none => toString q.num ++ "/" ++ toString q.den
  | some k =>
    let m := (q * (10 : ℚ) ^ k).num
    let digits := toString m.natAbs
    let digits := (List.replicate (k + 1 - digits.length) '0').asString ++ digits
    let sign := if m < 0 then "-" else ""
    if k = 0 then sign ++ digits
    else
      sign ++ (digits.toList.take (digits.length - k)).asString ++ "." ++
        (digits.toList.drop (digits.length - k)).asString

/-- `String(val)` for the categorical grouping key. -/
def jsToString : Value → String
  | .vstr s => s
  | .vnum q => ratDecimalString q
  | .vbool b => if b then "true" else "false"
  | .vnull => "null"

/-- Increment the count of `k`, preserving first-encountered key order
(JS string-keyed object insertion order). -/
def bump (m : List (String × Nat)) (k : String) : List (String × Nat) :=
  match m with
  | [] => [(k, 1)]
  | (k', c) :: rest => if k' = k then (k', c + 1) :: rest else (k', c) :: bump rest k

/-- `valueCounts` built by the forEach over the trimmed string forms. -/
def valueCountsOf (data : List Row) (name : String) : List (String × Nat) :=
  (columnValues data name).foldl (fun m v => bump m (strTrim (jsToString v))) []

/-- Descending-by-count comparison used by `.sort((a, b) => b[1] - a[1])`. -/
def countGE (a b : String × Nat) : Prop := b.2 ≤ a.2

instance : DecidableRel countGE := fun a b => Nat.decLe b.2 a.2

/-- `Object.entries(valueCounts).sort((a, b) => b[1] - a[1])`: a stable
descending sort by count, ties keeping first-encountered order. -/
def sortedCountsOf (data : List Row) (name : String) : List (String × Nat) :=
  List.insertionSort countGE (valueCountsOf data name)

/-- Floor of a rational, computed directly from numerator and denominator. -/
def ratFloor (q : ℚ) : Int :=
  if 0 ≤ q.num then ((q.num.toNat / q.den : Nat) : Int)
  else -((((-q.num).toNat + q.den - 1) / q.den : Nat) : Int)

/-- `((count / values.length) * 100).toFixed(2)` kept as the rounded numeric
value (the source stores its decimal string rendering; the percentages in
scope are nonnegative, where half-up rounding matches `toFixed`). -/
def ratToFixed2 (q : ℚ) : ℚ :=
  ((ratFloor (q * 100 + 1 / 2) : ℚ)) / 100

/-- The categorical stats record built for a string column. -/
def mkCategoricalStat (data : List Row) (name : String) : CategoricalStat :=
  let values := columnValues data name
  let sortedCounts := sortedCountsOf data name
  ⟨sortedCounts.length,
   values.length,
   data.length - values.length,
   (sortedCounts.take 5).map fun p =>
     ⟨p.1, p.2, ratToFixed2 ((p.2 : ℚ) / (values.length : ℚ) * 100)⟩,
   match sortedCounts with
   | [] => none
   | p :: _ => some p.1⟩

def msPerDay : Int := 86400000

/-- Days since the Unix epoch of a civil date (proleptic Gregorian); days
beyond the month's end roll over, as the legacy `new Date` parser does. -/
def daysFromCivil (y : Int) (m d : Nat) : Int :=
  let y' := if m ≤ 2 then y - 1 else y
  let era := (if 0 ≤ y' then y' else y' - 399) / 400
  let yoe := (y' - era * 400).toNat
  let mp := (m + 9) % 12
  let doy := (153 * mp + 2) / 5 + d - 1
  let doe := yoe * 365 + yoe / 4 - yoe / 100 + doy
  era * 146097 + (doe : Int) - 719468

def civilMs (t : Nat × Nat × Nat) : Int :=
  daysFromCivil (t.1 : Int) t.2.1 t.2.2 * msPerDay

/-- `new Date(s).getTime()` for the date-string shapes in scope, at UTC
midnight (the model fixes the timezone to UTC).  The generic parser accepts
further shapes (ISO date-times, month names) not occurring in the claims. -/
def dateFromString (s : String) : Option Int :=
  let cs := s.toList
  if patYMD '-' cs then
    if isoValid cs then some (civilMs (ymdOf cs)) else none
  else if patMDY '/' cs || patMDY '-' cs then
    if legacyValid (mdyOf cs) then some (civilMs (mdyOf cs)) else none
  else if patYMD '/' cs then
    if legacyValid (ymdOf cs) then some (civilMs (ymdOf cs)) else none
  else none

/-- Truncation toward zero (`ToInteger` on a finite double). -/
def jsTrunc (q : ℚ) : Int :=
  q.num.tdiv (q.den : Int)

/-- `new Date(val).getTime()` on a cell value; `none` models an invalid date. -/
def jsDateValue : Value → Option Int
  | .vstr s => dateFromString s
  | .vnum q => some (jsTrunc q)
  | .vbool b => some (if b then 1 else 0)
  | .vnull => none

/-- The successfully coerced timestamps of a date column. -/
def dateValuesOf (data : List Row) (name : String) : List Int :=
  (columnValues data name).filterMap jsDateValue

/-- `Math.round(x)`: round half toward positive infinity. -/
def jsRound (q : ℚ) : Int :=
  ratFloor (q + 1 / 2)

/-- The date stats record built for a date column. -/
def mkDateStat (data : List Row) (name : String) : DateStat :=
  let ts := dateValuesOf data name
  let sorted := sortAscInt ts
  let first := sorted.getD 0 0
  let last := sorted.getD (sorted.length - 1) 0
  ⟨ts.length,
   data.length - ts.length,
   first,
   last,
   jsRound (((last - first : Int) : ℚ) / (msPerDay : ℚ))⟩

/-- The message of the `TypeError` thrown when the source assigns to
`stats[type + 'Stats']` for a key that does not exist on the stats object
(`numberStats`, `stringStats`, `booleanStats`). -/
def typeErrorMsg : String :=
  "TypeError: cannot set property of undefined"

def initStats (data : List Row) (cols : List Column) : SummaryStats :=
  ⟨data.length, cols.length, cols.map (fun c => ⟨c.name, c.type⟩), [], [], []⟩

/-- One iteration of the `columns.forEach` body of `generateSummaryStats`.
A column with no non-empty values is written to `stats[type + 'Stats']`,
which is the real `dateStats` key only for `date`; for the other three types
that property is `undefined` and the assignment throws.  A `boolean`-typed
column with values matches none of the `if/else if` branches and is skipped. -/
def processColumn (data : List Row) (acc : SummaryStats) (col : Column) :
    Except String SummaryStats :=
  let values := columnValues data col.name
  if values.length = 0 then
    match col.type with
    | .date =>
      .ok ⟨acc.rowCount, acc.columnCount, acc.columns, acc.numericStats,
           acc.categoricalStats, upsert acc.dateStats col.name (.nullOnly data.length)⟩
    | _ => .error typeErrorMsg
  else
    match col.type with
    | .number =>
      if 0 < (numericValuesOf data col.name).length then
        .ok ⟨acc.rowCount, acc.columnCount, acc.columns,
             upsert acc.numericStats col.name (mkNumericStat data col.name),
             acc.categoricalStats, acc.dateStats⟩
      else .ok acc
    | .string =>
      .ok ⟨acc.rowCount, acc.columnCount, acc.columns, acc.numericStats,
           upsert acc.categoricalStats col.name (mkCategoricalStat data col.name),
           acc.dateStats⟩
    | .date =>
      if 0 < (dateValuesOf data col.name).length then
        .ok ⟨acc.rowCount, acc.columnCount, acc.columns, acc.numericStats,
             acc.categoricalStats,
             upsert acc.dateStats col.name (.stat (mkDateStat data col.name))⟩
      else .ok acc
    | .boolean => .ok acc

/-- The `columns.forEach` loop with exception propagation. -/
def processColumns (data : List Row) : SummaryStats → List Column → Except String SummaryStats
  | acc, [] => .ok acc
  | acc, c :: cs =>
    match processColumn data acc c with
    | .ok acc' => processColumns data acc' cs
    | .error e => .error e

/-- `DataAnalyzer.generateSummaryStats`. -/
def generateSummaryStats (data : List Row) (cols : List Column) :
    Except String SummaryStats :=
  if data.length = 0 then .ok ⟨0, cols.length, [], [], [], []⟩
  else processColumns data (initStats data cols) cols

/-! ## Upload controller -/

/-- The output of `processCSV`/`processExcel`. -/
structure ProcessedData where
  data : List Row
  columns : List Column
  rowCount : Nat
deriving DecidableEq

/-- One `uploadFile` invocation: whether multer attached a file, the original
filename, the outcome the format-specific parser would produce on this file,
and whether `fileData.save()` would succeed. -/
structure UploadRequest where
  hasFile : Bool
  originalName : String
  parseOutcome : Except String ProcessedData
  saveOk : Bool

/-- The observable outcome of `uploadFile`: HTTP status, success flag, whether
`FileProcessor.cleanupFile` was invoked on the temporary upload path, and
whether a Table record was persisted. -/
structure UploadResult where
  status : Nat
  success : Bool
  cleanupCalled : Bool
  saved : Bool
deriving DecidableEq

/-- The controller's column-structure validation: the parsed columns are
`{name, type}` objects; only an empty `name` is falsy (the `type` enum strings
are never empty). -/
def validateColumns (cols : List Column) : Bool :=
  cols.all fun c => c.name != ""

/-- `uploadController.uploadFile`.  Control flow of the source: missing file
and unsupported extension return 400 before processing; a parser rejection is
caught and returns 500; both of these return without invoking `cleanupFile`.
A validation or save exception reaches the outer catch, which does invoke
`cleanupFile`.  The success path cleans up after saving. -/
def uploadFile (req : UploadRequest) : UploadResult :=
  if req.hasFile = false then ⟨400, false, false, false⟩
  else
    let fileType := getFileType req.originalName
    if fileType == "csv" || fileType == "xlsx" || fileType == "xls" then
      match req.parseOutcome with
      | .error _ => ⟨500, false, false, false⟩
      | .ok pd =>
        if validateColumns pd.columns then
          if req.saveOk then ⟨201, true, true, true⟩
          else ⟨500, false, true, false⟩
        else ⟨500, false, true, false⟩
    else ⟨400, false, false, false⟩

/-! ## AI provider gateway -/

inductive Provider where
  | huggingface
  | gemini
  | openai
deriving DecidableEq

inductive GatewayError where
  | allProvidersFailed
  | noProviderConfigured
deriving DecidableEq

/-- A successful gateway return value: a provider's text answer, or — via the
inherited `constructor` property — the `String` wrapper object `Object(prompt)`
(represented by the prompt it wraps). -/
inductive GatewayResult where
  | text (s : String)
  | objectOf (prompt : String)
deriving DecidableEq

/-- The environment `generateAIInsights` reads: the raw `AI_PROVIDER` variable,
which of the three API keys are set, and the outcome each provider call would
have were it performed. -/
structure AIEnv where
  aiProviderRaw : Option String
  hfKey : Bool
  geminiKey : Bool
  openaiKey : Bool
  hfOutcome : Except String String
  geminiOutcome : Except String String
  openaiOutcome : Except String String

def hasKey (env : AIEnv) : Provider → Bool
  | .huggingface => env.hfKey
  | .gemini => env.geminiKey
  | .openai => env.openaiKey

/-- Outcome of `callHuggingFace`/`callGemini`/`callOpenAI` when invoked. -/
def provOutcome (env : AIEnv) : Provider → Except String String
  | .huggingface => env.hfOutcome
  | .gemini => env.geminiOutcome
  | .openai => env.openaiOutcome

/-- `(process.env.AI_PROVIDER || 'huggingface').toLowerCase()`. -/
def preferredName (env : AIEnv) : String :=
  match env.aiProviderRaw with
  | none => "huggingface"
  | some s => if s == "" then "huggingface" else strToLower s

/-- What the JS bracket lookup `providers[name]` on the plain object literal
finds.  Besides the three own properties, the lookup traverses the prototype
chain: of `Object.prototype`'s properties only `constructor` (the callable
`Object` function) and `__proto__` (the non-callable prototype object) have
all-lowercase names and thus survive the preceding `toLowerCase()`. -/
inductive ProviderLookup where
  | own (p : Provider)
  | inheritedCallable
  | inheritedNonCallable
  | absent
deriving DecidableEq

def providersLookup (s : String) : ProviderLookup :=
  if s == "huggingface" then .own .huggingface
  else if s == "gemini" then .own .gemini
  else if s == "openai" then .own .openai
  else if s == "constructor" then .inheritedCallable
  else if s == "__proto__" then .inheritedNonCallable
  else .absent

/-- The provider a name denotes, when it denotes one.  The fallback loop's
`provider === aiProvider` string comparison is equivalent to comparing with
this resolution, since the loop only ranges over the three own names. -/
def parseProvider (s : String) : Option Provider :=
  match providersLookup s with
  | .own p => some p
  | _ => none

/-- The provider the preferred name resolves to in the `providers` lookup
object, if any. -/
def prefOf (env : AIEnv) : Option Provider :=
  parseProvider (preferredName env)

/-- The preferred-provider block, entered whenever `providers[aiProvider]` is
truthy.  For an own provider the key guards run (a missing key throws, caught
by the same catch as a failed call) and the provider is called.  For the
inherited `constructor` no key guard matches its name, and the call
`Object(prompt)` succeeds with a `String` wrapper — no credential check, no
provider network call.  For the non-callable `__proto__` the call itself
throws and is caught, falling through like any failure.
Returns the successful value if any, plus the network calls performed. -/
def prefAttempt (env : AIEnv) (prompt : String) : Option GatewayResult × List Provider :=
  match providersLookup (preferredName env) with
  | .absent => (none, [])
  | .inheritedNonCallable => (none, [])
  | .inheritedCallable => (some (.objectOf prompt), [])
  | .own p =>
    if hasKey env p then
      match provOutcome env p with
      | .ok t => (some (.text t), [p])
      | .error _ => (none, [p])
    else (none, [])

def fallbackOrder : List Provider := [.huggingface, .gemini, .openai]

/-- The fallback loop: skip the already-tried preferred provider, skip
providers without a key, return the first success, collect failed calls. -/
def fallbackLoop (env : AIEnv) (pref : Option Provider) :
    List Provider → Option String × List Provider
  | [] => (none, [])
  | p :: rest =>
    if pref = some p then fallbackLoop env pref rest
    else if hasKey env p then
      match provOutcome env p with
      | .ok t => (some t, [p])
      | .error _ =>
        let r := fallbackLoop env pref rest
        (r.1, p :: r.2)
    else fallbackLoop env pref rest

/-- `aiProviders.generateAIInsights`: result and the list of provider network
calls performed (the system prompt only shapes the text sent and is elided). -/
def generateAIInsights (env : AIEnv) (prompt : String) :
    Except GatewayError GatewayResult × List Provider :=
  match (prefAttempt env prompt).1 with
  | some r => (.ok r, (prefAttempt env prompt).2)
  | none =>
    match (fallbackLoop env (prefOf env) fallbackOrder).1 with
    | some t =>
      (.ok (.text t),
        (prefAttempt env prompt).2 ++ (fallbackLoop env (prefOf env) fallbackOrder).2)
    | none =>
      if env.hfKey || env.geminiKey || env.openaiKey then
        (.error .allProvidersFailed,
          (prefAttempt env prompt).2 ++ (fallbackLoop env (prefOf env) fallbackOrder).2)
      else
        (.error .noProviderConfigured,
          (prefAttempt env prompt).2 ++ (fallbackLoop env (prefOf env) fallbackOrder).2)

/-- The providers carrying a credential, in fallback order. -/
def credProviders (env : AIEnv) : List Provider :=
  fallbackOrder.filter (hasKey env)

/-! ## Chat controller -/

/-- A persisted Table as the chat controller reads it. -/
structure FileTable where
  data : List Row
  columns : List Column

/-- The request body of `POST /api/ai/chat`. -/
structure ChatRequest where
  fileId : Option String
  question : Option String

/-- JS falsiness of an optional string field (`undefined`, `null`, `''`). -/
def jsFalsyStr : Option String → Bool
  | none => true
  | some s => s == ""

/-- `!question || !question.trim()`. -/
def blankQuestion : Option String → Bool
  | none => true
  | some s => s == "" || strTrim s == ""

/-- The observable outcome of `chat`: HTTP status, the response message
(`""` on success), and whether `generateAIInsights` was invoked. -/
structure ChatOutcome where
  status : Nat
  message : String
  aiCalled : Bool
deriving DecidableEq

/-- `aiController.chat`.  Guard order as in the source: fileId, question,
provider configuration, table lookup, then the AI call.  The prompt assembly
(summary text and sample-row rendering) only shapes the text sent to the
provider and does not affect the modelled observables. -/
def chat (req : ChatRequest) (hasProvider : Bool) (file : Option FileTable)
    (aiOutcome : Except String String) : ChatOutcome :=
  if jsFalsyStr req.fileId then ⟨400, "File ID is required", false⟩
  else if blankQuestion req.question then ⟨400, "Question is required", false⟩
  else if hasProvider = false then ⟨500, "No AI provider is configured", false⟩
  else
    match file with
    | none => ⟨404, "File not found", false⟩
    | some _ =>
      match aiOutcome with
      | .ok _ => ⟨200, "", true⟩
      | .error e => ⟨500, "Error calling AI API: " ++ e, true⟩

/-! ## Theorems -/

lemma detectStep_sum_le (name : String) (acc : Nat × Nat × Nat) (row : Row) :
    (detectStep name acc row).1 + (detectStep name acc row).2.1 + (detectStep name acc row).2.2 ≤
      acc.1 + acc.2.1 + acc.2.2 + 1 := by
  unfold detectStep
  cases jsIndex row name with
  | none => simp
  | some v =>
    simp only
    split_ifs <;> simp <;> omega

lemma foldl_detectStep_le (name : String) :
    ∀ (l : List Row) (acc : Nat × Nat × Nat),
      (l.foldl (detectStep name) acc).1 + (l.foldl (detectStep name) acc).2.1 +
        (l.foldl (detectStep name) acc).2.2 ≤ acc.1 + acc.2.1 + acc.2.2 + l.length
  | [], acc => by simp
  | r :: rs, acc => by
    simp only [List.foldl_cons, List.length_cons]
    have h1 := detectStep_sum_le name acc r
    have h2 := foldl_detectStep_le name rs (detectStep name acc r)
    omega

lemma sampleCounts_sum_le (data : List Row) (name : String) :
    (sampleCounts data name).1 + (sampleCounts data name).2.1 + (sampleCounts data name).2.2 ≤
      min 10 data.length := by
  have h := foldl_detectStep_le name (data.take (min 10 data.length)) (0, 0, 0)
  simp only [List.length_take] at h
  unfold sampleCounts
  omega

/-- C1 (counterexample): on the column sample `"1", "x", "y"` there are three
non-empty values, of which only one (33% ≤ 70%) is classified as a number and
none as date or boolean, yet `detectColumnType` answers `number`, not
`string`: the implemented denominator is the classified count, not the
non-empty count. -/
theorem detectColumnType_denominator_cex :
    ((([[("a", Value.vstr "1")], [("a", Value.vstr "x")], [("a", Value.vstr "y")]] :
        List Row).take (min 10 3)).filterMap fun row =>
          (jsIndex row "a").filter fun v => !isEmptyCell v).length = 3 ∧
    sampleCounts [[("a", Value.vstr "1")], [("a", Value.vstr "x")], [("a", Value.vstr "y")]] "a" =
      (1, 0, 0) ∧
    10 * 1 ≤ 7 * 3 ∧
    detectColumnType [[("a", Value.vstr "1")], [("a", Value.vstr "x")], [("a", Value.vstr "y")]] "a" =
      ColType.number := by
  refine ⟨by decide, by decide, by decide, by decide⟩

/-- C1 (amended): if no single category among number, date, boolean accounts
for more than 70% of the *classified* sample values (the denominator
`sampleSize - (sampleSize - n - d - b)` reduces to `n + d + b`), then
`detectColumnType` returns `string`. -/
theorem detectColumnType_majority_string (data : List Row) (name : String)
    (hn : 10 * (sampleCounts data name).1 ≤
      7 * ((sampleCounts data name).1 + (sampleCounts data name).2.1 + (sampleCounts data name).2.2))
    (hd : 10 * (sampleCounts data name).2.1 ≤
      7 * ((sampleCounts data name).1 + (sampleCounts data name).2.1 + (sampleCounts data name).2.2))
    (hb : 10 * (sampleCounts data name).2.2 ≤
      7 * ((sampleCounts data name).1 + (sampleCounts data name).2.1 + (sampleCounts data name).2.2)) :
    detectColumnType data name = ColType.string := by
  unfold detectColumnType
  by_cases hlen : data.length = 0
  · simp [hlen]
  · have hbound := sampleCounts_sum_le data name
    simp only [hlen, if_false, ratioGT, decide_eq_true_eq]
    rw [if_neg (by omega), if_neg (by omega), if_neg (by omega)]

/-- C1 (witness): a sample that is half numbers and half booleans has no 70%
majority among the classified values and is detected as `string`. -/
theorem detectColumnType_majority_string_witness :
    detectColumnType [[("a", Value.vstr "1")], [("a", Value.vstr "true")]] "a" = ColType.string :=
  detectColumnType_majority_string
    [[("a", Value.vstr "1")], [("a", Value.vstr "true")]] "a"
    (by decide) (by decide) (by decide)

/-- C2: a `number`-typed column whose every cell is empty is not recorded as
`{nullCount: rowCount}`: the write targets `stats['numberStats']`, a property
that does not exist on the stats object, and the call throws a `TypeError`.
Moreover a `boolean`-typed column with a value matches no branch of the
per-type dispatch and is recorded in none of the three stat mappings. -/
theorem generateSummaryStats_zero_valid_crash :
    generateSummaryStats [[("a", Value.vnull)]] [⟨"a", ColType.number⟩] =
      Except.error typeErrorMsg ∧
    generateSummaryStats [[("b", Value.vstr "true")]] [⟨"b", ColType.boolean⟩] =
      Except.ok ⟨1, 1, [⟨"b", ColType.boolean⟩], [], [], []⟩ :=
  ⟨rfl, rfl⟩

/-- C3: `uploadFile` skips `cleanupFile` on two failure paths: the
unsupported-extension rejection (400) and the parser-failure response (500)
both return before any cleanup, contradicting the every-path cleanup
contract. -/
theorem uploadFile_missing_cleanup :
    uploadFile ⟨true, "data.txt", Except.ok ⟨[], [], 0⟩, true⟩ = ⟨400, false, false, false⟩ ∧
    uploadFile ⟨true, "data.csv", Except.error "unreadable source", true⟩ =
      ⟨500, false, false, false⟩ :=
  ⟨rfl, rfl⟩

/-- C8: an empty table short-circuits `generateSummaryStats` to the all-empty
summary: zero rows, empty column list, and empty numeric/categorical/date
mappings (the column count still reflects the descriptor list). -/
theorem generateSummaryStats_empty_table (cols : List Column) :
    generateSummaryStats [] cols = Except.ok ⟨0, cols.length, [], [], [], []⟩ :=
  rfl

/-- C7: whenever the format parser fails, or the parsed column schema fails
validation, `uploadFile` responds with a failure and persists nothing. -/
theorem uploadFile_no_persist_on_failure (req : UploadRequest)
    (h : (∃ e, req.parseOutcome = Except.error e) ∨
      (∃ pd, req.parseOutcome = Except.ok pd ∧ validateColumns pd.columns = false)) :
    (uploadFile req).saved = false ∧ (uploadFile req).success = false := by
  obtain ⟨hasFile, oname, po, so⟩ := req
  cases hasFile with
  | false => exact ⟨rfl, rfl⟩
  | true =>
    cases po with
    | error e =>
      by_cases hft : (getFileType oname == "csv" || getFileType oname == "xlsx" ||
          getFileType oname == "xls") = true
      · simp [uploadFile, hft]
      · simp [uploadFile, hft]
    | ok pd =>
      rcases h with ⟨e, he⟩ | ⟨pd', hpd, hval⟩
      · simp at he
      · obtain rfl : pd = pd' := by injection hpd
        by_cases hft : (getFileType oname == "csv" || getFileType oname == "xlsx" ||
            getFileType oname == "xls") = true
        · simp [uploadFile, hft, hval]
        · simp [uploadFile, hft]

/-- C7 (witness): a CSV whose parse fails is rejected without persistence. -/
theorem uploadFile_no_persist_on_failure_witness :
    (uploadFile ⟨true, "sales.csv", Except.error "malformed", true⟩).saved = false ∧
    (uploadFile ⟨true, "sales.csv", Except.error "malformed", true⟩).success = false :=
  uploadFile_no_persist_on_failure ⟨true, "sales.csv", Except.error "malformed", true⟩
    (Or.inl ⟨"malformed", rfl⟩)

/-- C6 (counterexample): a chat invocation with a blank question but no
`fileId` is answered 400 `'File ID is required'`, not the claimed
`'Question is required'` (the fileId guard runs first). -/
theorem chat_blank_question_cex :
    blankQuestion (some "") = true ∧
    chat ⟨none, some ""⟩ true (some ⟨[], []⟩) (Except.ok "answer") =
      ⟨400, "File ID is required", false⟩ ∧
    "File ID is required" ≠ "Question is required" := by
  refine ⟨rfl, rfl, by decide⟩

/-- C6 (amended): a chat invocation whose question is empty or
whitespace-only fails with a 400 and performs no AI provider call, regardless
of provider configuration or table contents; the message is
`'Question is required'` when a `fileId` is supplied, while a missing
`fileId` takes precedence with `'File ID is required'`. -/
theorem chat_blank_question (req : ChatRequest) (hasProvider : Bool)
    (file : Option FileTable) (aiOutcome : Except String String)
    (hq : blankQuestion req.question = true) :
    (chat req hasProvider file aiOutcome).status = 400 ∧
    (chat req hasProvider file aiOutcome).aiCalled = false ∧
    (chat req hasProvider file aiOutcome).message =
      (if jsFalsyStr req.fileId then "File ID is required" else "Question is required") := by
  unfold chat
  by_cases hid : jsFalsyStr req.fileId
  · simp [hid]
  · simp [hid, hq]

/-- C6 (witness): a whitespace-only question on an existing table with a
configured provider is rejected with 400 `'Question is required'` and no
provider call. -/
theorem chat_blank_question_witness :
    (chat ⟨some "abc123", some "   "⟩ true (some ⟨[], []⟩) (Except.ok "answer")).status = 400 ∧
    (chat ⟨some "abc123", some "   "⟩ true (some ⟨[], []⟩) (Except.ok "answer")).aiCalled = false ∧
    (chat ⟨some "abc123", some "   "⟩ true (some ⟨[], []⟩) (Except.ok "answer")).message =
      (if jsFalsyStr (some "abc123") then "File ID is required" else "Question is required") :=
  chat_blank_question ⟨some "abc123", some "   "⟩ true (some ⟨[], []⟩) (Except.ok "answer")
    (by decide)

lemma mem_fallbackOrder (p : Provider) : p ∈ fallbackOrder := by
  cases p <;> simp [fallbackOrder]

lemma fallbackLoop_of_no_key (env : AIEnv) (pref : Option Provider) :
    ∀ l : List Provider, (∀ p ∈ l, hasKey env p = false) →
      fallbackLoop env pref l = (none, [])
  | [], _ => rfl
  | p :: rest, hall => by
    unfold fallbackLoop
    by_cases hp : pref = some p
    · rw [if_pos hp]
      exact fallbackLoop_of_no_key env pref rest fun r hr => hall r (List.mem_cons_of_mem p hr)
    · rw [if_neg hp, hall p (List.mem_cons_self p rest)]
      simp only [Bool.false_eq_true, if_false]
      exact fallbackLoop_of_no_key env pref rest fun r hr => hall r (List.mem_cons_of_mem p hr)

lemma fallbackLoop_success (env : AIEnv) (pref : Option Provider) :
    ∀ (l : List Provider) (q : Provider) (t : String), q ∈ l → pref ≠ some q →
      hasKey env q = true → provOutcome env q = Except.ok t →
      (∀ r ∈ l, r ≠ q → pref = some r ∨ hasKey env r = false) →
      fallbackLoop env pref l = (some t, [q])
  | [], q, t, hq, _, _, _, _ => absurd hq (List.not_mem_nil q)
  | p :: rest, q, t, hq, hpref, hkey, hok, hside => by
    unfold fallbackLoop
    by_cases hpq : q = p
    · subst hpq
      rw [if_neg hpref, hkey]
      simp only [if_true, hok]
    · have hqrest : q ∈ rest := by
        rcases List.mem_cons.mp hq with h | h
        · exact absurd h hpq
        · exact h
      have hrec := fallbackLoop_success env pref rest q t hqrest hpref hkey hok
        fun r hr hrq => hside r (List.mem_cons_of_mem p hr) hrq
      rcases hside p (List.mem_cons_self p rest) (fun h => hpq h.symm) with hp | hp
      · rw [if_pos hp]
        exact hrec
      · by_cases hpp : pref = some p
        · rw [if_pos hpp]
          exact hrec
        · rw [if_neg hpp, hp]
          simp only [Bool.false_eq_true, if_false]
          exact hrec

lemma fallbackLoop_exhausted (env : AIEnv) (pref : Option Provider) :
    ∀ l : List Provider, (fallbackLoop env pref l).1 = none →
      ∀ p ∈ l, hasKey env p = true →
        pref = some p ∨
          (p ∈ (fallbackLoop env pref l).2 ∧ ∃ e, provOutcome env p = Except.error e)
  | [], _, p, hp, _ => absurd hp (List.not_mem_nil p)
  | p' :: rest, hnone, p, hp, hkey => by
    unfold fallbackLoop at hnone ⊢
    by_cases hpp' : pref = some p'
    · rw [if_pos hpp'] at hnone ⊢
      rcases List.mem_cons.mp hp with rfl | hrest
      · exact Or.inl hpp'
      · exact fallbackLoop_exhausted env pref rest hnone p hrest hkey
    · rw [if_neg hpp'] at hnone ⊢
      by_cases hk' : hasKey env p' = true
      · rw [hk'] at hnone ⊢
        simp only [if_true] at hnone ⊢
        cases ho : provOutcome env p' with
        | ok t =>
          rw [ho] at hnone
          simp at hnone
        | error e =>
          rw [ho] at hnone
          have hnone' : (fallbackLoop env pref rest).1 = none := hnone
          rcases List.mem_cons.mp hp with rfl | hrest
          · exact Or.inr ⟨List.mem_cons_self p _, e, ho⟩
          · rcases fallbackLoop_exhausted env pref rest hnone' p hrest hkey with h | ⟨hm, he⟩
            · exact Or.inl h
            · exact Or.inr ⟨List.mem_cons_of_mem p' hm, he⟩
      · have hk'' : hasKey env p' = false := by
          cases h : hasKey env p'
          · rfl
          · exact absurd h hk'
        rw [hk''] at hnone ⊢
        simp only [Bool.false_eq_true, if_false] at hnone ⊢
        rcases List.mem_cons.mp hp with rfl | hrest
        · exact absurd hkey hk'
        · exact fallbackLoop_exhausted env pref rest hnone p hrest hkey

lemma providersLookup_of_parse (s : String) (p : Provider)
    (h : parseProvider s = some p) : providersLookup s = ProviderLookup.own p := by
  unfold parseProvider at h
  cases hl : providersLookup s <;> rw [hl] at h
  · injection h with h'
    rw [h']
  · cases h
  · cases h
  · cases h

lemma providersLookup_callable (s : String)
    (h : providersLookup s = ProviderLookup.inheritedCallable) : s = "constructor" := by
  unfold providersLookup at h
  split_ifs at h with h1 h2 h3 h4 h5
  exact eq_of_beq h4

lemma prefAttempt_fst_none_of_fail (env : AIEnv) (prompt : String) (p : Provider)
    (hpref : prefOf env = some p)
    (hfail : hasKey env p = false ∨ ∃ e, provOutcome env p = Except.error e) :
    (prefAttempt env prompt).1 = none := by
  have hl := providersLookup_of_parse (preferredName env) p hpref
  unfold prefAttempt
  rw [hl]
  cases hk : hasKey env p with
  | false => simp [hk]
  | true =>
    rcases hfail with hk' | ⟨e, he⟩
    · rw [hk] at hk'
      cases hk'
    · simp [hk, he]

/-- C4 (counterexample): with `AI_PROVIDER=constructor` and zero API keys the
bracket lookup `providers['constructor']` finds the inherited `Object`
constructor, the preferred block runs with no credential check, and
`Object(prompt)` — a `String` wrapper of the prompt — is returned: no
`NoProviderConfigured` error is raised and no provider is called, even
though zero providers are credentialed. -/
theorem generateAIInsights_constructor_cex :
    credProviders ⟨some "constructor", false, false, false, Except.error "",
        Except.error "", Except.error ""⟩ = [] ∧
    generateAIInsights ⟨some "constructor", false, false, false, Except.error "",
        Except.error "", Except.error ""⟩ "PROMPT" =
      (Except.ok (GatewayResult.objectOf "PROMPT"), []) ∧
    (generateAIInsights ⟨some "constructor", false, false, false, Except.error "",
        Except.error "", Except.error ""⟩ "PROMPT").1 ≠
      Except.error GatewayError.noProviderConfigured :=
  ⟨by decide, by decide, by decide⟩

/-- C4 (amended): the gateway's fallback contract.  (1) If the preferred
provider is uncredentialed or its call fails and exactly one other provider
is credentialed, that provider's successful result is returned.  (2) With
zero credentialed providers the no-provider-configured error is raised and no
provider network call is made — provided the preferred name is not the
inherited `constructor` property.  (3) The all-providers-failed error implies
every credentialed provider was called and its call failed.  (4) When
`AI_PROVIDER` lower-cases to `constructor`, the lookup finds the inherited
`Object` constructor and the gateway returns `Object(prompt)` with no
credential check and no provider call, whatever the configuration. -/
theorem generateAIInsights_fallback_contract (env : AIEnv) (prompt : String) :
    (∀ p q t, prefOf env = some p →
        (hasKey env p = false ∨ ∃ e, provOutcome env p = Except.error e) →
        (credProviders env).filter (fun r => r != p) = [q] →
        provOutcome env q = Except.ok t →
        (generateAIInsights env prompt).1 = Except.ok (GatewayResult.text t)) ∧
    (preferredName env ≠ "constructor" → credProviders env = [] →
        generateAIInsights env prompt =
          (Except.error GatewayError.noProviderConfigured, [])) ∧
    ((generateAIInsights env prompt).1 = Except.error GatewayError.allProvidersFailed →
        ∀ p, hasKey env p = true →
          p ∈ (generateAIInsights env prompt).2 ∧ ∃ e, provOutcome env p = Except.error e) ∧
    (preferredName env = "constructor" →
        generateAIInsights env prompt = (Except.ok (GatewayResult.objectOf prompt), [])) := by
  refine ⟨?_, ?_, ?_, ?_⟩
  · intro p q t hpref hfail hone hok
    have hq0 : q ∈ (credProviders env).filter (fun r => r != p) := by
      rw [hone]
      exact List.mem_singleton_self q
    have hq1 := List.mem_filter.mp hq0
    have hqp : q ≠ p := bne_iff_ne.mp hq1.2
    have hqkey : hasKey env q = true := (List.mem_filter.mp hq1.1).2
    have hprefq : prefOf env ≠ some q := by
      rw [hpref]
      intro h
      exact hqp (Option.some.inj h).symm
    have hside : ∀ r ∈ fallbackOrder, r ≠ q → prefOf env = some r ∨ hasKey env r = false := by
      intro r _ hrq
      by_cases hrp : r = p
      · subst hrp
        exact Or.inl hpref
      · cases hk : hasKey env r with
        | false => exact Or.inr rfl
        | true =>
          exfalso
          have hrcred : r ∈ credProviders env :=
            List.mem_filter.mpr ⟨mem_fallbackOrder r, hk⟩
          have hrf : r ∈ (credProviders env).filter (fun x => x != p) :=
            List.mem_filter.mpr ⟨hrcred, bne_iff_ne.mpr hrp⟩
          rw [hone] at hrf
          exact hrq (List.mem_singleton.mp hrf)
    have hfb := fallbackLoop_success env (prefOf env) fallbackOrder q t
      (mem_fallbackOrder q) hprefq hqkey hok hside
    have hpa := prefAttempt_fst_none_of_fail env prompt p hpref hfail
    unfold generateAIInsights
    rw [hpa, hfb]
  · intro hnc hcred
    have hkeys : ∀ p, hasKey env p = false := by
      intro p
      cases hk : hasKey env p with
      | false => rfl
      | true =>
        exfalso
        have hm : p ∈ credProviders env := List.mem_filter.mpr ⟨mem_fallbackOrder p, hk⟩
        rw [hcred] at hm
        exact List.not_mem_nil p hm
    have hpa : prefAttempt env prompt = (none, []) := by
      unfold prefAttempt
      cases hl : providersLookup (preferredName env) with
      | own p => simp [hkeys p]
      | inheritedCallable => exact absurd (providersLookup_callable _ hl) hnc
      | inheritedNonCallable => rfl
      | absent => rfl
    have hfb : fallbackLoop env (prefOf env) fallbackOrder = (none, []) :=
      fallbackLoop_of_no_key env (prefOf env) fallbackOrder fun p _ => hkeys p
    have hh : env.hfKey = false := hkeys .huggingface
    have hg : env.geminiKey = false := hkeys .gemini
    have ho : env.openaiKey = false := hkeys .openai
    unfold generateAIInsights
    rw [hpa, hfb]
    simp [hh, hg, ho]
  · intro hres p hkey
    cases hpa1 : (prefAttempt env prompt).1 with
    | some r =>
      unfold generateAIInsights at hres
      rw [hpa1] at hres
      simp at hres
    | none =>
      cases hfb1 : (fallbackLoop env (prefOf env) fallbackOrder).1 with
      | some t =>
        unfold generateAIInsights at hres
        rw [hpa1, hfb1] at hres
        simp at hres
      | none =>
        have hcalls : (generateAIInsights env prompt).2 =
            (prefAttempt env prompt).2 ++ (fallbackLoop env (prefOf env) fallbackOrder).2 := by
          unfold generateAIInsights
          rw [hpa1, hfb1]
          by_cases hany : (env.hfKey || env.geminiKey || env.openaiKey) = true
          · simp [hany]
          · simp [hany]
        by_cases hpp : prefOf env = some p
        · have hl := providersLookup_of_parse (preferredName env) p hpp
          cases ho : provOutcome env p with
          | ok t =>
            exfalso
            have hsome : (prefAttempt env prompt).1 = some (GatewayResult.text t) := by
              unfold prefAttempt
              rw [hl]
              simp [hkey, ho]
            rw [hpa1] at hsome
            cases hsome
          | error e =>
            refine ⟨?_, e, rfl⟩
            rw [hcalls]
            have hpa2 : (prefAttempt env prompt).2 = [p] := by
              unfold prefAttempt
              rw [hl]
              simp [hkey, ho]
            rw [hpa2]
            exact List.mem_append_left _ (List.mem_cons_self p [])
        · rcases fallbackLoop_exhausted env (prefOf env) fallbackOrder hfb1 p
            (mem_fallbackOrder p) hkey with h | ⟨hm, he⟩
          · exact absurd h hpp
          · refine ⟨?_, he⟩
            rw [hcalls]
            exact List.mem_append_right _ hm
  · intro hc
    have hl : providersLookup (preferredName env) = ProviderLookup.inheritedCallable := by
      rw [hc]
      decide
    have hpa : prefAttempt env prompt = (some (GatewayResult.objectOf prompt), []) := by
      unfold prefAttempt
      rw [hl]
    unfold generateAIInsights
    rw [hpa]

/-- C4 (witness): (1) preferred Gemini fails and OpenAI, the only other
credentialed provider, answers; (2) with the default preferred name and no
keys at all the configuration error is raised with zero calls; (3) with
HuggingFace and OpenAI credentialed and both failing, the exhaustion error
certifies HuggingFace was called and failed; (4) `AI_PROVIDER=CONSTRUCTOR`
lower-cases to the inherited property and short-circuits to `Object(prompt)`
even with every key configured. -/
theorem generateAIInsights_fallback_contract_witness :
    (generateAIInsights ⟨some "gemini", false, true, true, Except.error "x",
        Except.error "gemfail", Except.ok "hello"⟩ "P").1 =
      Except.ok (GatewayResult.text "hello") ∧
    generateAIInsights ⟨none, false, false, false, Except.error "", Except.error "",
        Except.error ""⟩ "P" = (Except.error GatewayError.noProviderConfigured, []) ∧
    (Provider.huggingface ∈ (generateAIInsights ⟨some "openai", true, false, true,
        Except.error "hferr", Except.error "", Except.error "oaierr"⟩ "P").2 ∧
      ∃ e, provOutcome ⟨some "openai", true, false, true, Except.error "hferr",
        Except.error "", Except.error "oaierr"⟩ Provider.huggingface = Except.error e) ∧
    generateAIInsights ⟨some "CONSTRUCTOR", true, true, true, Except.ok "h",
        Except.ok "g", Except.ok "o"⟩ "P" =
      (Except.ok (GatewayResult.objectOf "P"), []) :=
  ⟨(generateAIInsights_fallback_contract ⟨some "gemini", false, true, true, Except.error "x",
      Except.error "gemfail", Except.ok "hello"⟩ "P").1 Provider.gemini Provider.openai
      "hello" (by decide) (Or.inr ⟨"gemfail", rfl⟩) (by decide) rfl,
   (generateAIInsights_fallback_contract ⟨none, false, false, false, Except.error "",
      Except.error "", Except.error ""⟩ "P").2.1 (by decide) (by decide),
   (generateAIInsights_fallback_contract ⟨some "openai", true, false, true,
      Except.error "hferr", Except.error "", Except.error "oaierr"⟩ "P").2.2.1 rfl
      Provider.huggingface rfl,
   (generateAIInsights_fallback_contract ⟨some "CONSTRUCTOR", true, true, true,
      Except.ok "h", Except.ok "g", Except.ok "o"⟩ "P").2.2.2 (by decide)⟩


lemma mem_upsert {α : Type} (m : List (String × α)) (k : String) (v : α)
    (k' : String) (v' : α) (h : (k', v') ∈ upsert m k v) :
    (k', v') ∈ m ∨ (k' = k ∧ v' = v) := by
  induction m with
  | nil =>
    simp only [upsert, List.mem_singleton] at h
    rw [Prod.mk.injEq] at h
    exact Or.inr h
  | cons p rest ih =>
    obtain ⟨a, b⟩ := p
    unfold upsert at h
    by_cases hk : a = k
    · rw [if_pos hk] at h
      rcases List.mem_cons.mp h with h1 | h1
      · rw [Prod.mk.injEq] at h1
        exact Or.inr h1
      · exact Or.inl (List.mem_cons_of_mem _ h1)
    · rw [if_neg hk] at h
      rcases List.mem_cons.mp h with h1 | h1
      · exact Or.inl (List.mem_cons.mpr (Or.inl h1))
      · rcases ih h1 with h2 | h2
        · exact Or.inl (List.mem_cons_of_mem _ h2)
        · exact Or.inr h2

lemma getD_eq_get {α : Type} : ∀ (l : List α) (d : α) (i : Nat) (h : i < l.length),
    l.getD i d = l.get ⟨i, h⟩
  | [], _, i, h => absurd h (by simp)
  | _ :: _, _, 0, _ => rfl
  | _ :: l, d, i + 1, h => getD_eq_get l d i (by simpa using h)

lemma sorted_getD_le (l : List ℚ) (hs : l.Sorted (· ≤ ·)) (i j : Nat)
    (hij : i ≤ j) (hj : j < l.length) : l.getD i 0 ≤ l.getD j 0 := by
  have hi : i < l.length := lt_of_le_of_lt hij hj
  rw [getD_eq_get l 0 i hi, getD_eq_get l 0 j hj]
  exact hs.rel_get_of_le (Fin.mk_le_mk.mpr hij)

lemma foldl_add_eq_sum : ∀ (l : List ℚ) (a : ℚ), l.foldl (· + ·) a = a + l.sum
  | [], a => by simp
  | x :: l, a => by
    simp only [List.foldl_cons, List.sum_cons]
    rw [foldl_add_eq_sum l (a + x)]
    ring

lemma mkNumericStat_ordered (data : List Row) (name : String)
    (h : 0 < (numericValuesOf data name).length) :
    (mkNumericStat data name).min ≤ (mkNumericStat data name).median ∧
    (mkNumericStat data name).median ≤ (mkNumericStat data name).max := by
  simp only [mkNumericStat, medianOfSorted]
  have hsorted : (sortAscQ (numericValuesOf data name)).Sorted (· ≤ ·) :=
    List.sorted_insertionSort _ _
  have hlen : (sortAscQ (numericValuesOf data name)).length =
      (numericValuesOf data name).length := List.length_insertionSort _ _
  set srt := sortAscQ (numericValuesOf data name) with hsrt
  by_cases hpar : srt.length % 2 = 0
  · rw [if_pos hpar]
    constructor
    · have ha := sorted_getD_le srt hsorted 0 (srt.length / 2 - 1) (by omega) (by omega)
      have hb := sorted_getD_le srt hsorted 0 (srt.length / 2) (by omega) (by omega)
      linarith
    · have ha := sorted_getD_le srt hsorted (srt.length / 2 - 1) (srt.length - 1)
        (by omega) (by omega)
      have hb := sorted_getD_le srt hsorted (srt.length / 2) (srt.length - 1)
        (by omega) (by omega)
      linarith
  · rw [if_neg hpar]
    exact ⟨sorted_getD_le srt hsorted 0 (srt.length / 2) (by omega) (by omega),
      sorted_getD_le srt hsorted (srt.length / 2) (srt.length - 1) (by omega) (by omega)⟩

lemma mkNumericStat_mean (data : List Row) (name : String) :
    (mkNumericStat data name).count = (numericValuesOf data name).length ∧
    (mkNumericStat data name).sum = (numericValuesOf data name).sum ∧
    (mkNumericStat data name).mean =
      (numericValuesOf data name).sum / ((numericValuesOf data name).length : ℚ) := by
  simp only [mkNumericStat]
  rw [foldl_add_eq_sum]
  simp

/-- What one `forEach` iteration can do to the three stat mappings. -/
lemma processColumn_spec (data : List Row) (acc : SummaryStats) (col : Column)
    (s : SummaryStats) (h : processColumn data acc col = Except.ok s) :
    s.rowCount = acc.rowCount ∧
    (∀ name st, (name, st) ∈ s.numericStats → (name, st) ∈ acc.numericStats ∨
      (st = mkNumericStat data name ∧ 0 < (numericValuesOf data name).length)) ∧
    (∀ name cs, (name, cs) ∈ s.categoricalStats → (name, cs) ∈ acc.categoricalStats ∨
      (cs = mkCategoricalStat data name ∧ 0 < (columnValues data name).length)) ∧
    (∀ name e, (name, e) ∈ s.dateStats → (name, e) ∈ acc.dateStats ∨
      e = DateEntry.nullOnly data.length ∨
      (e = DateEntry.stat (mkDateStat data name) ∧ 0 < (dateValuesOf data name).length)) := by
  unfold processColumn at h
  by_cases hv : (columnValues data col.name).length = 0
  · rw [if_pos hv] at h
    cases hct : col.type <;> rw [hct] at h
    · cases h
    · injection h with h'
      subst h'
      refine ⟨rfl, fun _ _ hm => Or.inl hm, fun _ _ hm => Or.inl hm, ?_⟩
      intro name e hm
      rcases mem_upsert _ _ _ _ _ hm with h1 | ⟨_, h2⟩
      · exact Or.inl h1
      · exact Or.inr (Or.inl h2)
    · cases h
    · cases h
  · rw [if_neg hv] at h
    have hv' : 0 < (columnValues data col.name).length := Nat.pos_of_ne_zero hv
    cases hct : col.type <;> rw [hct] at h
    · by_cases hn : 0 < (numericValuesOf data col.name).length
      · rw [if_pos hn] at h
        injection h with h'
        subst h'
        refine ⟨rfl, ?_, fun _ _ hm => Or.inl hm, fun _ _ hm => Or.inl hm⟩
        intro name st hm
        rcases mem_upsert _ _ _ _ _ hm with h1 | ⟨h1, h2⟩
        · exact Or.inl h1
        · subst h1
          exact Or.inr ⟨h2, hn⟩
      · rw [if_neg hn] at h
        injection h with h'
        subst h'
        exact ⟨rfl, fun _ _ hm => Or.inl hm, fun _ _ hm => Or.inl hm,
          fun _ _ hm => Or.inl hm⟩
    · by_cases hn : 0 < (dateValuesOf data col.name).length
      · rw [if_pos hn] at h
        injection h with h'
        subst h'
        refine ⟨rfl, fun _ _ hm => Or.inl hm, fun _ _ hm => Or.inl hm, ?_⟩
        intro name e hm
        rcases mem_upsert _ _ _ _ _ hm with h1 | ⟨h1, h2⟩
        · exact Or.inl h1
        · subst h1
          exact Or.inr (Or.inr ⟨h2, hn⟩)
      · rw [if_neg hn] at h
        injection h with h'
        subst h'
        exact ⟨rfl, fun _ _ hm => Or.inl hm, fun _ _ hm => Or.inl hm,
          fun _ _ hm => Or.inl hm⟩
    · injection h with h'
      subst h'
      exact ⟨rfl, fun _ _ hm => Or.inl hm, fun _ _ hm => Or.inl hm,
        fun _ _ hm => Or.inl hm⟩
    · injection h with h'
      subst h'
      refine ⟨rfl, fun _ _ hm => Or.inl hm, ?_, fun _ _ hm => Or.inl hm⟩
      intro name cs hm
      rcases mem_upsert _ _ _ _ _ hm with h1 | ⟨h1, h2⟩
      · exact Or.inl h1
      · subst h1
        exact Or.inr ⟨h2, hv'⟩

/-- The `forEach` loop preserves the per-iteration facts. -/
lemma processColumns_spec (data : List Row) :
    ∀ (cols : List Column) (acc s : SummaryStats),
      processColumns data acc cols = Except.ok s →
      s.rowCount = acc.rowCount ∧
      (∀ name st, (name, st) ∈ s.numericStats → (name, st) ∈ acc.numericStats ∨
        (st = mkNumericStat data name ∧ 0 < (numericValuesOf data name).length)) ∧
      (∀ name cs, (name, cs) ∈ s.categoricalStats → (name, cs) ∈ acc.categoricalStats ∨
        (cs = mkCategoricalStat data name ∧ 0 < (columnValues data name).length)) ∧
      (∀ name e, (name, e) ∈ s.dateStats → (name, e) ∈ acc.dateStats ∨
        e = DateEntry.nullOnly data.length ∨
        (e = DateEntry.stat (mkDateStat data name) ∧ 0 < (dateValuesOf data name).length))
  | [], acc, s, h => by
    injection h with h'
    subst h'
    exact ⟨rfl, fun _ _ hm => Or.inl hm, fun _ _ hm => Or.inl hm, fun _ _ hm => Or.inl hm⟩
  | c :: cs, acc, s, h => by
    unfold processColumns at h
    cases hstep : processColumn data acc c with
    | error e =>
      rw [hstep] at h
      cases h
    | ok acc' =>
      rw [hstep] at h
      obtain ⟨hr1, hn1, hc1, hd1⟩ := processColumn_spec data acc c acc' hstep
      obtain ⟨hr2, hn2, hc2, hd2⟩ := processColumns_spec data cs acc' s h
      refine ⟨hr2.trans hr1, ?_, ?_, ?_⟩
      · intro name st hm
        rcases hn2 name st hm with h1 | h1
        · exact hn1 name st h1
        · exact Or.inr h1
      · intro name cs' hm
        rcases hc2 name cs' hm with h1 | h1
        · exact hc1 name cs' h1
        · exact Or.inr h1
      · intro name e hm
        rcases hd2 name e hm with h1 | h1
        · exact hd1 name e h1
        · exact Or.inr h1

lemma generateSummaryStats_rowCount (data : List Row) (cols : List Column)
    (s : SummaryStats) (hok : generateSummaryStats data cols = Except.ok s) :
    s.rowCount = data.length := by
  unfold generateSummaryStats at hok
  by_cases hd : data.length = 0
  · rw [if_pos hd] at hok
    injection hok with h'
    subst h'
    exact hd.symm
  · rw [if_neg hd] at hok
    exact (processColumns_spec data cols (initStats data cols) s hok).1

lemma generateSummaryStats_numeric_mem (data : List Row) (cols : List Column)
    (s : SummaryStats) (name : String) (st : NumericStat)
    (hok : generateSummaryStats data cols = Except.ok s)
    (hm : (name, st) ∈ s.numericStats) :
    st = mkNumericStat data name ∧ 0 < (numericValuesOf data name).length := by
  unfold generateSummaryStats at hok
  by_cases hd : data.length = 0
  · rw [if_pos hd] at hok
    injection hok with h'
    subst h'
    simp at hm
  · rw [if_neg hd] at hok
    rcases (processColumns_spec data cols (initStats data cols) s hok).2.1 name st hm with
      h1 | h1
    · simp [initStats] at h1
    · exact h1

lemma generateSummaryStats_categorical_mem (data : List Row) (cols : List Column)
    (s : SummaryStats) (name : String) (cs : CategoricalStat)
    (hok : generateSummaryStats data cols = Except.ok s)
    (hm : (name, cs) ∈ s.categoricalStats) :
    cs = mkCategoricalStat data name ∧ 0 < (columnValues data name).length := by
  unfold generateSummaryStats at hok
  by_cases hd : data.length = 0
  · rw [if_pos hd] at hok
    injection hok with h'
    subst h'
    simp at hm
  · rw [if_neg hd] at hok
    rcases (processColumns_spec data cols (initStats data cols) s hok).2.2.1 name cs hm with
      h1 | h1
    · simp [initStats] at h1
    · exact h1

lemma generateSummaryStats_date_mem (data : List Row) (cols : List Column)
    (s : SummaryStats) (name : String) (e : DateEntry)
    (hok : generateSummaryStats data cols = Except.ok s)
    (hm : (name, e) ∈ s.dateStats) :
    e = DateEntry.nullOnly data.length ∨
      (e = DateEntry.stat (mkDateStat data name) ∧ 0 < (dateValuesOf data name).length) := by
  unfold generateSummaryStats at hok
  by_cases hd : data.length = 0
  · rw [if_pos hd] at hok
    injection hok with h'
    subst h'
    simp at hm
  · rw [if_neg hd] at hok
    rcases (processColumns_spec data cols (initStats data cols) s hok).2.2.2 name e hm with
      h1 | h1
    · simp [initStats] at h1
    · exact h1

lemma numericValuesOf_length_le (data : List Row) (name : String) :
    (numericValuesOf data name).length ≤ data.length :=
  le_trans (List.length_filterMap_le _ _) (List.length_filterMap_le _ _)

lemma dateValuesOf_length_le (data : List Row) (name : String) :
    (dateValuesOf data name).length ≤ data.length :=
  le_trans (List.length_filterMap_le _ _) (List.length_filterMap_le _ _)

/-- C5: every recorded numeric-stats entry has `min ≤ median ≤ max`, and its
count, sum and mean range over exactly the successfully coerced numeric
values of that column (coercion failures excluded). -/
theorem numericStats_sound (data : List Row) (cols : List Column) (s : SummaryStats)
    (name : String) (st : NumericStat)
    (hok : generateSummaryStats data cols = Except.ok s)
    (hm : (name, st) ∈ s.numericStats) :
    st.min ≤ st.median ∧ st.median ≤ st.max ∧
    st.count = (numericValuesOf data name).length ∧
    st.sum = (numericValuesOf data name).sum ∧
    st.mean = (numericValuesOf data name).sum / ((numericValuesOf data name).length : ℚ) := by
  obtain ⟨hst, hpos⟩ := generateSummaryStats_numeric_mem data cols s name st hok hm
  subst hst
  obtain ⟨h1, h2⟩ := mkNumericStat_ordered data name hpos
  obtain ⟨h3, h4, h5⟩ := mkNumericStat_mean data name
  exact ⟨h1, h2, h3, h4, h5⟩

unseal Rat.add Rat.mul Rat.inv Rat.sub in
/-- C5 (witness): the two-value column `100, 200` yields
`min = 100 ≤ median = 150 ≤ max = 200` and `mean = 300 / 2`. -/
theorem numericStats_sound_witness :
    generateSummaryStats [[("x", Value.vstr "100")], [("x", Value.vstr "200")]]
        [⟨"x", ColType.number⟩] =
      Except.ok ⟨2, 1, [⟨"x", ColType.number⟩],
        [("x", ⟨2, 0, 100, 200, 300, 150, 150⟩)], [], []⟩ ∧
    ((100 : ℚ) ≤ 150 ∧ (150 : ℚ) ≤ 200 ∧
      2 = (numericValuesOf [[("x", Value.vstr "100")], [("x", Value.vstr "200")]] "x").length ∧
      (300 : ℚ) =
        (numericValuesOf [[("x", Value.vstr "100")], [("x", Value.vstr "200")]] "x").sum ∧
      (150 : ℚ) =
        (numericValuesOf [[("x", Value.vstr "100")], [("x", Value.vstr "200")]] "x").sum /
          ((numericValuesOf [[("x", Value.vstr "100")], [("x", Value.vstr "200")]] "x").length : ℚ)) :=
  ⟨by decide,
   numericStats_sound [[("x", Value.vstr "100")], [("x", Value.vstr "200")]]
     [⟨"x", ColType.number⟩]
     ⟨2, 1, [⟨"x", ColType.number⟩], [("x", ⟨2, 0, 100, 200, 300, 150, 150⟩)], [], []⟩
     "x" ⟨2, 0, 100, 200, 300, 150, 150⟩ (by decide) (by decide)⟩

/-- C9: in every recorded numeric entry, and every full date entry,
`count + nullCount` equals the table's row count (`nullCount` absorbs missing
cells and coercion failures alike). -/
theorem stats_count_nullCount (data : List Row) (cols : List Column) (s : SummaryStats)
    (_hne : data ≠ []) (hok : generateSummaryStats data cols = Except.ok s) :
    (∀ name st, (name, st) ∈ s.numericStats → st.count + st.nullCount = s.rowCount) ∧
    (∀ name d, (name, DateEntry.stat d) ∈ s.dateStats → d.count + d.nullCount = s.rowCount) := by
  have hrc := generateSummaryStats_rowCount data cols s hok
  constructor
  · intro name st hm
    obtain ⟨hst, _⟩ := generateSummaryStats_numeric_mem data cols s name st hok hm
    subst hst
    have hle := numericValuesOf_length_le data name
    simp only [mkNumericStat, hrc]
    omega
  · intro name d hm
    rcases generateSummaryStats_date_mem data cols s name _ hok hm with h1 | ⟨h1, _⟩
    · cases h1
    · injection h1 with h2
      subst h2
      have hle := dateValuesOf_length_le data name
      simp only [mkDateStat, hrc]
      omega

unseal Rat.add Rat.mul Rat.inv Rat.sub in
/-- C9 (witness): the column `5, null` is recorded with `count = 1`,
`nullCount = 1`, summing to the row count `2`. -/
theorem stats_count_nullCount_witness :
    generateSummaryStats [[("x", Value.vstr "5")], [("x", Value.vnull)]]
        [⟨"x", ColType.number⟩] =
      Except.ok ⟨2, 1, [⟨"x", ColType.number⟩], [("x", ⟨1, 1, 5, 5, 5, 5, 5⟩)], [], []⟩ ∧
    1 + 1 =
      (⟨2, 1, [⟨"x", ColType.number⟩], [("x", ⟨1, 1, 5, 5, 5, 5, 5⟩)], [], []⟩ :
        SummaryStats).rowCount :=
  ⟨by decide,
   (stats_count_nullCount [[("x", Value.vstr "5")], [("x", Value.vnull)]]
     [⟨"x", ColType.number⟩]
     ⟨2, 1, [⟨"x", ColType.number⟩], [("x", ⟨1, 1, 5, 5, 5, 5, 5⟩)], [], []⟩
     (by decide) (by decide)).1 "x" ⟨1, 1, 5, 5, 5, 5, 5⟩ (by decide)⟩

lemma length_le_bump (m : List (String × Nat)) (k : String) :
    m.length ≤ (bump m k).length := by
  induction m with
  | nil => simp [bump]
  | cons p rest ih =>
    obtain ⟨a, c⟩ := p
    unfold bump
    by_cases h : a = k
    · rw [if_pos h]
      simp
    · rw [if_neg h]
      simpa using ih

lemma length_le_foldl_bump (key : Value → String) :
    ∀ (l : List Value) (m : List (String × Nat)),
      m.length ≤ (l.foldl (fun m v => bump m (key v)) m).length
  | [], _ => le_refl _
  | v :: l, m =>
    le_trans (length_le_bump m (key v)) (length_le_foldl_bump key l (bump m (key v)))

lemma valueCountsOf_ne_nil (data : List Row) (name : String)
    (h : 0 < (columnValues data name).length) :
    valueCountsOf data name ≠ [] := by
  unfold valueCountsOf
  cases hcv : columnValues data name with
  | nil =>
    rw [hcv] at h
    simp at h
  | cons v l =>
    intro hnil
    rw [List.foldl_cons] at hnil
    have h1 := length_le_foldl_bump (fun v => strTrim (jsToString v)) l
      (bump [] (strTrim (jsToString v)))
    rw [hnil] at h1
    simp [bump] at h1

lemma sortedCountsOf_ne_nil (data : List Row) (name : String)
    (h : 0 < (columnValues data name).length) :
    sortedCountsOf data name ≠ [] := by
  unfold sortedCountsOf
  intro hnil
  have hlen : (List.insertionSort countGE (valueCountsOf data name)).length =
      (valueCountsOf data name).length := List.length_insertionSort _ _
  rw [hnil] at hlen
  exact valueCountsOf_ne_nil data name h (List.length_eq_zero.mp hlen.symm)

lemma mkCategoricalStat_top (data : List Row) (name : String)
    (h : 0 < (columnValues data name).length) :
    ∃ tv tvs, (mkCategoricalStat data name).topValues = tv :: tvs ∧
      (mkCategoricalStat data name).mostFrequent = some tv.value := by
  obtain ⟨p, rest, hsc⟩ := List.exists_cons_of_ne_nil (sortedCountsOf_ne_nil data name h)
  refine ⟨⟨p.1, p.2, ratToFixed2 ((p.2 : ℚ) / ((columnValues data name).length : ℚ) * 100)⟩,
    (rest.take 4).map (fun q =>
      ⟨q.1, q.2, ratToFixed2 ((q.2 : ℚ) / ((columnValues data name).length : ℚ) * 100)⟩),
    ?_, ?_⟩
  · simp [mkCategoricalStat, hsc]
  · simp [mkCategoricalStat, hsc]

/-- C10: every recorded categorical entry reports as `mostFrequent` exactly
the value of its first (highest-count) top-values entry. -/
theorem categorical_mostFrequent_head (data : List Row) (cols : List Column)
    (s : SummaryStats) (name : String) (cs : CategoricalStat)
    (hok : generateSummaryStats data cols = Except.ok s)
    (hm : (name, cs) ∈ s.categoricalStats) :
    ∃ tv tvs, cs.topValues = tv :: tvs ∧ cs.mostFrequent = some tv.value := by
  obtain ⟨hcs, hpos⟩ := generateSummaryStats_categorical_mem data cols s name cs hok hm
  subst hcs
  exact mkCategoricalStat_top data name hpos

unseal Rat.add Rat.mul Rat.inv Rat.sub in
/-- C10 (witness): for the column `a, a` the categorical entry has
`topValues = [⟨a, 2, 100⟩]` and `mostFrequent = a`. -/
theorem categorical_mostFrequent_head_witness :
    generateSummaryStats [[("c", Value.vstr "a")], [("c", Value.vstr "a")]]
        [⟨"c", ColType.string⟩] =
      Except.ok ⟨2, 1, [⟨"c", ColType.string⟩], [],
        [("c", ⟨1, 2, 0, [⟨"a", 2, 100⟩], some "a"⟩)], []⟩ ∧
    (∃ tv tvs, (⟨1, 2, 0, [⟨"a", 2, 100⟩], some "a"⟩ : CategoricalStat).topValues =
        tv :: tvs ∧
      (⟨1, 2, 0, [⟨"a", 2, 100⟩], some "a"⟩ : CategoricalStat).mostFrequent =
        some tv.value) :=
  ⟨by decide,
   categorical_mostFrequent_head [[("c", Value.vstr "a")], [("c", Value.vstr "a")]]
     [⟨"c", ColType.string⟩]
     ⟨2, 1, [⟨"c", ColType.string⟩], [], [("c", ⟨1, 2, 0, [⟨"a", 2, 100⟩], some "a"⟩)], []⟩
     "c" ⟨1, 2, 0, [⟨"a", 2, 100⟩], some "a"⟩ (by decide) (by decide)⟩
